import Mathlib

/-!
Verification of the nonogram puzzle core: the seeded puzzle generator
(`generatePuzzle` in the services source file), the win / line-completion
evaluator (the win-check effect, `isRowComplete`, `isColComplete` in the App
source file), and the seed-derivation helper (`stringToSeed`, the seed branch
of `startNewGame`).

Modelling conventions:
- Grids are total functions `ℤ → ℤ → ℕ`; the code only ever reads and writes
  indices in `[0, size)`, mirrored here by explicit bounds checks wherever the
  code has them.
- The RNG class `Random` keeps a single counter initialised to the seed and
  increments it once per draw; `next()` returns the fractional part of
  `sin(counter) * 10000`, a fixed pure function of the counter. That fixed
  floating-point formula is abstracted as a parameter `frac : ℤ → ℚ`: every
  statement is proved for an arbitrary `frac`, so it holds in particular for
  the sin-based one. The counter position consumed by each draw is tracked
  exactly: draw 0 is the density draw, and the noise pass consumes draw
  `1 + y * size + x` for cell `(y, x)` (row-major, one draw per cell).
- `CellState`, `DifficultySettings` and `PuzzleData` are the shapes declared
  in the types module (imported by the sources but not itself part of the
  algorithmic core); their fields are as the spec data model describes.
-/

/-- Player cell states, the three-valued state of the data model. -/
inductive CellState where
  | EMPTY : CellState
  | FILLED : CellState
  | CROSSED : CellState
deriving DecidableEq, Repr

/-- Difficulty band: the closed density interval a target density is drawn from. -/
structure DifficultySettings where
  minDensity : ℚ
  maxDensity : ℚ
deriving DecidableEq, Repr

/-- Solution grids: cell values (0 or 1 in every reachable state) indexed by row then column. -/
abbrev Grid := ℤ → ℤ → ℕ

/-- Player grids: three-valued cells indexed by row then column. -/
abbrev PlayerGrid := ℤ → ℤ → CellState

/-- Bundle returned by `generatePuzzle`: title, solution grid, size, seed. -/
structure PuzzleData where
  title : String
  grid : Grid
  size : ℕ
  seed : ℕ

/-- Target density for a seed within a band, the first RNG draw:
`difficulty.minDensity + rng.next() * (difficulty.maxDensity - difficulty.minDensity)`.
The fresh `Random` has counter = seed, so this draw reads `frac seed`. -/
def targetDensity (frac : ℤ → ℚ) (seed : ℕ) (difficulty : DifficultySettings) : ℚ :=
  difficulty.minDensity + frac (seed : ℤ) * (difficulty.maxDensity - difficulty.minDensity)

/-- Noise pass: cell `(y, x)` is set from `rng.bool(targetDensity)`, i.e. `next() < targetDensity`.
The loop is row-major with one draw per cell, so cell `(y, x)` consumes the draw whose
counter is `seed + 1 + y * size + x` (the density draw already advanced the counter once). -/
def noiseGrid (frac : ℤ → ℚ) (seed : ℕ) (size : ℕ) (d : ℚ) : Grid := fun y x =>
  if frac ((seed : ℤ) + 1 + y * (size : ℤ) + x) < d then 1 else 0

/-- Moore-neighbour contribution read by the smoothing loop at neighbour position
`(ny, nx)`: counted only when in bounds and the pre-iteration cell is 1. -/
def neighborContribution (g : Grid) (size : ℕ) (ny nx : ℤ) : ℕ :=
  if 0 ≤ ny ∧ ny < (size : ℤ) ∧ 0 ≤ nx ∧ nx < (size : ℤ) then
    (if g ny nx = 1 then 1 else 0)
  else 0

/-- Filled-neighbour count of the smoothing loop: `dy` and `dx` each range over
-1, 0, 1, the `(0, 0)` offset is skipped, out-of-bounds offsets contribute 0. -/
def neighborCount (g : Grid) (size : ℕ) (y x : ℤ) : ℕ :=
  (([-1, 0, 1] : List ℤ).map (fun dy =>
    (([-1, 0, 1] : List ℤ).map (fun dx =>
      if dy = 0 ∧ dx = 0 then 0
      else neighborContribution g size (y + dy) (x + dx))).sum)).sum

/-- Single smoothing iteration: a fresh grid is computed from the pre-iteration
grid `g` (every read in the rule is from `g`), the rule overwriting exactly the
in-bounds cells: a filled cell stays filled iff it has at least 3 filled
neighbours, an empty cell becomes filled iff it has at least 4. -/
def smoothStep (g : Grid) (size : ℕ) : Grid := fun y x =>
  if 0 ≤ y ∧ y < (size : ℤ) ∧ 0 ≤ x ∧ x < (size : ℤ) then
    (if g y x = 1 then (if 3 ≤ neighborCount g size y x then 1 else 0)
     else (if 4 ≤ neighborCount g size y x then 1 else 0))
  else g y x

/-- Filled-cell total of the safety check: `grid.forEach(row => row.forEach(cell =>
filledCount += cell))`, the sum of all in-bounds cell values. -/
def filledCount (g : Grid) (size : ℕ) : ℕ :=
  ∑ y ∈ Finset.range size, ∑ x ∈ Finset.range size, g (y : ℤ) (x : ℤ)

/-- Single-cell write `grid[y][x] = v`. -/
def updateCell (g : Grid) (y x : ℤ) (v : ℕ) : Grid := fun y' x' =>
  if y' = y ∧ x' = x then v else g y' x'

/-- Safety check of step 3: with `filledCount` computed once, force the centre cell
`(floor(size/2), floor(size/2))` to 1 when the count is 0, and force `(0, 0)` to 0
when the count equals `size * size`. -/
def applyCorrection (g : Grid) (size : ℕ) : Grid :=
  let fc := filledCount g size
  let g1 := if fc = 0 then updateCell g ((size / 2 : ℕ) : ℤ) ((size / 2 : ℕ) : ℤ) 1 else g
  if fc = size * size then updateCell g1 0 0 0 else g1

/-- Grid state after the noise pass and the conditional smoothing pass, before the
safety check: smoothing runs exactly 2 iterations, and only when
`0.3 < targetDensity < 0.8`. -/
def preGrid (frac : ℤ → ℚ) (seed : ℕ) (size : ℕ) (difficulty : DifficultySettings) : Grid :=
  let d := targetDensity frac seed difficulty
  let noise := noiseGrid frac seed size d
  if (0.3 : ℚ) < d ∧ d < (0.8 : ℚ) then smoothStep (smoothStep noise size) size else noise

/-- Puzzle generation: density draw, noise pass, conditional smoothing, safety
check, then packaging with title `"Pattern #" ++ seed`, the size and the seed.
The artificial UI delay carries no semantics and is dropped. -/
def generatePuzzle (frac : ℤ → ℚ) (seed : ℕ) (size : ℕ)
    (difficulty : DifficultySettings) : PuzzleData :=
  { title := "Pattern #" ++ toString seed
    grid := applyCorrection (preGrid frac seed size difficulty) size
    size := size
    seed := seed }

/-- Shared per-cell check of the win effect and of `isRowComplete` /
`isColComplete`: fail when the solution cell is 1 and the player cell is not
FILLED, fail when the solution cell is 0 and the player cell is FILLED. -/
def cellOK (target : ℕ) (current : CellState) : Bool :=
  if target = 1 ∧ current ≠ CellState.FILLED then false
  else if target = 0 ∧ current = CellState.FILLED then false
  else true

/-- Whole-grid win verdict of the win-check effect: scan every cell, the verdict
is true iff no cell fails the per-cell check. -/
def isWin (sol : Grid) (pg : PlayerGrid) (size : ℕ) : Bool :=
  (List.range size).all fun r =>
    (List.range size).all fun c =>
      cellOK (sol (r : ℤ) (c : ℤ)) (pg (r : ℤ) (c : ℤ))

/-- Row completion verdict: false on an empty player grid (the guard), else every
cell of the row passes the per-cell check. -/
def isRowComplete (sol : Grid) (pg : PlayerGrid) (size : ℕ) (rowIndex : ℤ) : Bool :=
  if size = 0 then false
  else (List.range size).all fun c => cellOK (sol rowIndex (c : ℤ)) (pg rowIndex (c : ℤ))

/-- Column completion verdict: false on an empty player grid (the guard), else
every cell of the column passes the per-cell check. -/
def isColComplete (sol : Grid) (pg : PlayerGrid) (size : ℕ) (colIndex : ℤ) : Bool :=
  if size = 0 then false
  else (List.range size).all fun r => cellOK (sol (r : ℤ) colIndex) (pg (r : ℤ) colIndex)

/-- Wrap of the JS `| 0` coercion (ToInt32): reduce into `[-2^31, 2^31)`. -/
def wrap32 (z : ℤ) : ℤ := (z + 2 ^ 31) % 2 ^ 32 - 2 ^ 31

/-- Loop body of `stringToSeed`: `hash = ((hash << 5) - hash) + char; hash |= 0`.
The 32-bit shift `hash << 5` wraps by itself; the subtraction and addition are
exact and then wrapped by `|= 0`. -/
def hashStep (h : ℤ) (c : ℕ) : ℤ := wrap32 (wrap32 (h * 32) - h + (c : ℤ))

/-- Seed derivation from text (`stringToSeed`): 0 for the empty string, else the
absolute value of the rolling hash of the char codes. -/
def stringToSeed (s : List ℕ) : ℕ :=
  if s = [] then 0 else (s.foldl hashStep 0).natAbs

/-- Test of the `/^\d+$/` regex: nonempty and every char code a decimal digit. -/
def isNumericString (s : List ℕ) : Bool :=
  decide (s ≠ []) && s.all fun c => 48 ≤ c && c ≤ 57

/-- Decimal value taken by `parseInt(seedVal, 10)` on an all-digit string. -/
def parseIntDec (s : List ℕ) : ℕ :=
  s.foldl (fun acc c => acc * 10 + (c - 48)) 0

/-- Seed chosen by `startNewGame` when the caller supplies a nonempty text:
parse a purely-numeric string directly, otherwise hash it with `stringToSeed`. -/
def resolveSeed (s : List ℕ) : ℕ :=
  if isNumericString s then parseIntDec s else stringToSeed s

/-- Spec-side cell match rule: the player cell matches the solution cell iff
(solution is 1 and player is FILLED) or (solution is 0 and player is not FILLED). -/
def specCellMatch (t : ℕ) (cur : CellState) : Prop :=
  (t = 1 ∧ cur = CellState.FILLED) ∨ (t = 0 ∧ cur ≠ CellState.FILLED)

/-- Spec-side Moore neighbour count: offsets in the square `[-1,1] × [-1,1]`
minus the origin whose target lies in bounds and holds a filled cell. -/
def mooreCount (g : Grid) (size : ℕ) (y x : ℤ) : ℕ :=
  ((Finset.Icc (-1 : ℤ) 1 ×ˢ Finset.Icc (-1 : ℤ) 1).filter fun p =>
    p ≠ (0, 0) ∧
      ((0 ≤ y + p.1 ∧ y + p.1 < (size : ℤ) ∧ 0 ≤ x + p.2 ∧ x + p.2 < (size : ℤ)) ∧
        g (y + p.1) (x + p.2) = 1)).card

/-- Mapping that collapses CROSSED player cells to EMPTY. -/
def collapseCrossed (c : CellState) : CellState :=
  match c with
  | CellState.CROSSED => CellState.EMPTY
  | c => c

/-- Mapping that collapses EMPTY player cells to CROSSED. -/
def collapseEmpty (c : CellState) : CellState :=
  match c with
  | CellState.EMPTY => CellState.CROSSED
  | c => c

/-- Predicate: every cell of the grid holds 0 or 1. -/
def gridBinary (g : Grid) : Prop := ∀ y x : ℤ, g y x = 0 ∨ g y x = 1

lemma noiseGrid_binary (frac : ℤ → ℚ) (seed size : ℕ) (d : ℚ) :
    gridBinary (noiseGrid frac seed size d) := by
  intro y x
  unfold noiseGrid
  split <;> simp

lemma smoothStep_binary {g : Grid} (size : ℕ) (h : gridBinary g) :
    gridBinary (smoothStep g size) := by
  intro y x
  unfold smoothStep
  split
  · split <;> split <;> simp
  · exact h y x

lemma preGrid_binary (frac : ℤ → ℚ) (seed size : ℕ) (difficulty : DifficultySettings) :
    gridBinary (preGrid frac seed size difficulty) := by
  simp only [preGrid]
  split
  · exact smoothStep_binary size (smoothStep_binary size
      (noiseGrid_binary frac seed size (targetDensity frac seed difficulty)))
  · exact noiseGrid_binary frac seed size (targetDensity frac seed difficulty)

/-- C1: generation is a deterministic function of (seed, size, band): with the
same underlying draw formula, identical inputs give identical results, in
particular identical solution grid values at every position. -/
theorem generation_deterministic (frac : ℤ → ℚ) (seed₁ seed₂ size₁ size₂ : ℕ)
    (d₁ d₂ : DifficultySettings) (hs : seed₁ = seed₂) (hn : size₁ = size₂) (hd : d₁ = d₂) :
    generatePuzzle frac seed₁ size₁ d₁ = generatePuzzle frac seed₂ size₂ d₂ ∧
    ∀ y x : ℤ, (generatePuzzle frac seed₁ size₁ d₁).grid y x =
      (generatePuzzle frac seed₂ size₂ d₂).grid y x := by
  subst hs hn hd
  exact ⟨rfl, fun _ _ => rfl⟩

/-- Witness for C1 at seed 42, size 5, band [0.5, 0.7]. -/
theorem generation_deterministic_witness :
    generatePuzzle (fun _ => 0) 42 5 ⟨0.5, 0.7⟩ = generatePuzzle (fun _ => 0) 42 5 ⟨0.5, 0.7⟩ ∧
    ∀ y x : ℤ, (generatePuzzle (fun _ => 0) 42 5 ⟨0.5, 0.7⟩).grid y x =
      (generatePuzzle (fun _ => 0) 42 5 ⟨0.5, 0.7⟩).grid y x :=
  generation_deterministic (fun _ => 0) 42 42 5 5 ⟨0.5, 0.7⟩ ⟨0.5, 0.7⟩ rfl rfl rfl

/-- C9: the seed chosen for a supplied text is stable (equal texts give equal
seeds), a purely-numeric text is parsed directly, and any other text goes
through the rolling hash. -/
theorem seed_derivation_deterministic (s t : List ℕ) (hst : s = t) :
    resolveSeed s = resolveSeed t ∧
    (isNumericString s = true → resolveSeed s = parseIntDec s) ∧
    (isNumericString s = false → resolveSeed s = stringToSeed s) := by
  subst hst
  refine ⟨rfl, ?_, ?_⟩ <;> intro h <;> simp [resolveSeed, h]

/-- Witness for C9 at the char codes of the text 42. -/
theorem seed_derivation_deterministic_witness :
    resolveSeed [52, 50] = resolveSeed [52, 50] ∧
    (isNumericString [52, 50] = true → resolveSeed [52, 50] = parseIntDec [52, 50]) ∧
    (isNumericString [52, 50] = false → resolveSeed [52, 50] = stringToSeed [52, 50]) :=
  seed_derivation_deterministic [52, 50] [52, 50] rfl

lemma cellOK_eq_true_iff {t : ℕ} (cur : CellState) (h : t = 0 ∨ t = 1) :
    cellOK t cur = true ↔ specCellMatch t cur := by
  rcases h with h | h <;> subst h <;> cases cur <;> simp [cellOK, specCellMatch]

/-- C3: the whole-grid win verdict is true iff every cell matches under the
cell match rule. -/
theorem win_iff_cellMatch (sol : Grid) (pg : PlayerGrid) (size : ℕ)
    (h01 : ∀ y x : ℤ, 0 ≤ y → y < (size : ℤ) → 0 ≤ x → x < (size : ℤ) →
      sol y x = 0 ∨ sol y x = 1) :
    isWin sol pg size = true ↔
      ∀ r c : ℕ, r < size → c < size → specCellMatch (sol (r : ℤ) (c : ℤ)) (pg (r : ℤ) (c : ℤ)) := by
  simp only [isWin, List.all_eq_true, List.mem_range]
  constructor
  · intro h r c hr hc
    have h01rc : sol (r : ℤ) (c : ℤ) = 0 ∨ sol (r : ℤ) (c : ℤ) = 1 :=
      h01 r c (Int.ofNat_nonneg r) (by exact_mod_cast hr) (Int.ofNat_nonneg c)
        (by exact_mod_cast hc)
    exact (cellOK_eq_true_iff _ h01rc).mp (h r hr c hc)
  · intro h r hr c hc
    have h01rc : sol (r : ℤ) (c : ℤ) = 0 ∨ sol (r : ℤ) (c : ℤ) = 1 :=
      h01 r c (Int.ofNat_nonneg r) (by exact_mod_cast hr) (Int.ofNat_nonneg c)
        (by exact_mod_cast hc)
    exact (cellOK_eq_true_iff _ h01rc).mpr (h r c hr hc)

/-- Witness for C3 at the spec example: solution [[1,0],[0,1]] and player
[[FILLED, EMPTY], [CROSSED, FILLED]]. -/
theorem win_iff_cellMatch_witness :
    (∀ y x : ℤ, 0 ≤ y → y < ((2 : ℕ) : ℤ) → 0 ≤ x → x < ((2 : ℕ) : ℤ) →
      (fun y x : ℤ => if y = x then 1 else 0) y x = 0 ∨
        (fun y x : ℤ => if y = x then 1 else 0) y x = 1) ∧
    (isWin (fun y x : ℤ => if y = x then 1 else 0)
      (fun y x : ℤ =>
        if y = x then CellState.FILLED else if y = 1 then CellState.CROSSED else CellState.EMPTY)
      2 = true ↔
      ∀ r c : ℕ, r < 2 → c < 2 →
        specCellMatch ((fun y x : ℤ => if y = x then 1 else 0) (r : ℤ) (c : ℤ))
          ((fun y x : ℤ =>
            if y = x then CellState.FILLED else if y = 1 then CellState.CROSSED else CellState.EMPTY)
            (r : ℤ) (c : ℤ))) :=
  ⟨fun y x _ _ _ _ => by by_cases h : y = x <;> simp [h],
   win_iff_cellMatch _ _ 2 (fun y x _ _ _ _ => by by_cases h : y = x <;> simp [h])⟩

/-- C4: the whole-grid win verdict is true iff every row is complete and every
column is complete. -/
theorem win_iff_lines (sol : Grid) (pg : PlayerGrid) (size : ℕ) :
    isWin sol pg size = true ↔
      ((∀ r : ℕ, r < size → isRowComplete sol pg size (r : ℤ) = true) ∧
       (∀ c : ℕ, c < size → isColComplete sol pg size (c : ℤ) = true)) := by
  by_cases hsize : size = 0
  · subst hsize
    simp [isWin]
  · simp only [isWin, isRowComplete, isColComplete, if_neg hsize, List.all_eq_true,
      List.mem_range]
    constructor
    · intro h
      exact ⟨fun r hr c hc => h r hr c hc, fun c hc r hr => h r hr c hc⟩
    · intro h r hr c hc
      exact h.1 r hr c hc

lemma cellOK_collapseCrossed (t : ℕ) (c : CellState) :
    cellOK t (collapseCrossed c) = cellOK t c := by
  cases c <;> simp [cellOK, collapseCrossed]

lemma cellOK_collapseEmpty (t : ℕ) (c : CellState) :
    cellOK t (collapseEmpty c) = cellOK t c := by
  cases c <;> simp [cellOK, collapseEmpty]

/-- C5: replacing every CROSSED player cell with EMPTY, or every EMPTY player
cell with CROSSED, changes no evaluator verdict: whole-grid win, every row
verdict and every column verdict are unchanged. -/
theorem evaluator_crossed_empty_symmetry (sol : Grid) (pg : PlayerGrid) (size : ℕ) :
    (isWin sol (fun y x => collapseCrossed (pg y x)) size = isWin sol pg size ∧
     isWin sol (fun y x => collapseEmpty (pg y x)) size = isWin sol pg size) ∧
    (∀ r : ℤ,
      isRowComplete sol (fun y x => collapseCrossed (pg y x)) size r = isRowComplete sol pg size r ∧
      isRowComplete sol (fun y x => collapseEmpty (pg y x)) size r = isRowComplete sol pg size r) ∧
    (∀ c : ℤ,
      isColComplete sol (fun y x => collapseCrossed (pg y x)) size c = isColComplete sol pg size c ∧
      isColComplete sol (fun y x => collapseEmpty (pg y x)) size c = isColComplete sol pg size c) := by
  refine ⟨⟨?_, ?_⟩, fun r => ⟨?_, ?_⟩, fun c => ⟨?_, ?_⟩⟩ <;>
    simp only [isWin, isRowComplete, isColComplete, cellOK_collapseCrossed, cellOK_collapseEmpty]

lemma generatePuzzle_grid (frac : ℤ → ℚ) (seed size : ℕ) (difficulty : DifficultySettings) :
    (generatePuzzle frac seed size difficulty).grid =
      applyCorrection (preGrid frac seed size difficulty) size := rfl

lemma le_one_of_binary {g : Grid} (hb : gridBinary g) (y x : ℤ) : g y x ≤ 1 := by
  rcases hb y x with h | h <;> simp [h]

lemma cell_zero_of_filledCount_zero {g : Grid} {size : ℕ} (h : filledCount g size = 0)
    {y x : ℕ} (hy : y < size) (hx : x < size) : g (y : ℤ) (x : ℤ) = 0 := by
  unfold filledCount at h
  rw [Finset.sum_eq_zero_iff] at h
  have h2 := h y (Finset.mem_range.mpr hy)
  rw [Finset.sum_eq_zero_iff] at h2
  exact h2 x (Finset.mem_range.mpr hx)

lemma cell_one_of_filledCount_full {g : Grid} {size : ℕ} (hb : gridBinary g)
    (h : filledCount g size = size * size) {y x : ℕ} (hy : y < size) (hx : x < size) :
    g (y : ℤ) (x : ℤ) = 1 := by
  by_contra hne
  have h0 : g (y : ℤ) (x : ℤ) = 0 := (hb y x).resolve_right hne
  have hlt : filledCount g size < size * size := by
    unfold filledCount
    calc ∑ a ∈ Finset.range size, ∑ b ∈ Finset.range size, g (a : ℤ) (b : ℤ)
        < ∑ _a ∈ Finset.range size, size := by
          apply Finset.sum_lt_sum
          · intro i _
            calc ∑ b ∈ Finset.range size, g (i : ℤ) (b : ℤ)
                ≤ ∑ _b ∈ Finset.range size, 1 :=
                  Finset.sum_le_sum fun j _ => le_one_of_binary hb (i : ℤ) (j : ℤ)
              _ = size := by simp
          · refine ⟨y, Finset.mem_range.mpr hy, ?_⟩
            calc ∑ b ∈ Finset.range size, g (y : ℤ) (b : ℤ)
                < ∑ _b ∈ Finset.range size, 1 := by
                  apply Finset.sum_lt_sum
                  · intro j _
                    exact le_one_of_binary hb (y : ℤ) (j : ℤ)
                  · exact ⟨x, Finset.mem_range.mpr hx, by rw [h0]; exact Nat.zero_lt_one⟩
              _ = size := by simp
      _ = size * size := by simp [Nat.mul_comm]
  exact absurd h (Nat.ne_of_lt hlt)

lemma exists_one_of_filledCount_ne_zero {g : Grid} {size : ℕ} (hb : gridBinary g)
    (h : filledCount g size ≠ 0) :
    ∃ y x : ℕ, y < size ∧ x < size ∧ g (y : ℤ) (x : ℤ) = 1 := by
  by_contra hno
  push_neg at hno
  apply h
  unfold filledCount
  apply Finset.sum_eq_zero
  intro a ha
  apply Finset.sum_eq_zero
  intro b hbm
  exact (hb (a : ℤ) (b : ℤ)).resolve_right
    (hno a b (Finset.mem_range.mp ha) (Finset.mem_range.mp hbm))

lemma exists_zero_of_filledCount_ne_full {g : Grid} {size : ℕ} (hb : gridBinary g)
    (h : filledCount g size ≠ size * size) :
    ∃ y x : ℕ, y < size ∧ x < size ∧ g (y : ℤ) (x : ℤ) = 0 := by
  by_contra hno
  push_neg at hno
  apply h
  unfold filledCount
  calc ∑ a ∈ Finset.range size, ∑ b ∈ Finset.range size, g (a : ℤ) (b : ℤ)
      = ∑ _a ∈ Finset.range size, ∑ _b ∈ Finset.range size, 1 :=
        Finset.sum_congr rfl fun a ha => Finset.sum_congr rfl fun b hbm =>
          (hb (a : ℤ) (b : ℤ)).resolve_left
            (hno a b (Finset.mem_range.mp ha) (Finset.mem_range.mp hbm))
    _ = size * size := by simp [Nat.mul_comm]

lemma applyCorrection_frame (g : Grid) (size : ℕ) :
    ∃ p : ℤ × ℤ,
      (p = (((size / 2 : ℕ) : ℤ), ((size / 2 : ℕ) : ℤ)) ∨ p = (0, 0)) ∧
      ∀ y x : ℤ, (y, x) ≠ p → applyCorrection g size y x = g y x := by
  by_cases h0 : filledCount g size = 0 <;> by_cases hf : filledCount g size = size * size
  · have hs : size = 0 := by
      have hzero : size * size = 0 := by rw [← hf, h0]
      exact (Nat.mul_eq_zero.mp hzero).elim id id
    subst hs
    refine ⟨(0, 0), Or.inr rfl, ?_⟩
    intro y x hne
    have hyx : ¬(y = 0 ∧ x = 0) := fun hand => hne (by rw [hand.1, hand.2])
    simp only [applyCorrection]
    rw [if_pos (show filledCount g 0 = 0 * 0 by rw [h0]), if_pos h0]
    simp only [updateCell]
    simp [hyx]
  · refine ⟨(((size / 2 : ℕ) : ℤ), ((size / 2 : ℕ) : ℤ)), Or.inl rfl, ?_⟩
    intro y x hne
    have hyx : ¬(y = ((size / 2 : ℕ) : ℤ) ∧ x = ((size / 2 : ℕ) : ℤ)) :=
      fun hand => hne (by rw [hand.1, hand.2])
    simp only [applyCorrection]
    rw [if_neg hf, if_pos h0]
    simp only [updateCell]
    rw [if_neg hyx]
  · refine ⟨(0, 0), Or.inr rfl, ?_⟩
    intro y x hne
    have hyx : ¬(y = 0 ∧ x = 0) := fun hand => hne (by rw [hand.1, hand.2])
    simp only [applyCorrection]
    rw [if_pos hf, if_neg h0]
    simp only [updateCell]
    rw [if_neg hyx]
  · refine ⟨(0, 0), Or.inr rfl, ?_⟩
    intro y x _
    simp only [applyCorrection]
    rw [if_neg hf, if_neg h0]

/-- C2: for a valid band and size at least 2, the generated grid contains at
least one filled cell and at least one empty cell. -/
theorem generated_grid_nondegenerate (frac : ℤ → ℚ) (seed size : ℕ)
    (difficulty : DifficultySettings) (hmin : 0 ≤ difficulty.minDensity)
    (hminmax : difficulty.minDensity ≤ difficulty.maxDensity)
    (hmax : difficulty.maxDensity ≤ 1) (hsize : 2 ≤ size) :
    (∃ y x : ℕ, y < size ∧ x < size ∧
      (generatePuzzle frac seed size difficulty).grid (y : ℤ) (x : ℤ) = 1) ∧
    (∃ y x : ℕ, y < size ∧ x < size ∧
      (generatePuzzle frac seed size difficulty).grid (y : ℤ) (x : ℤ) = 0) := by
  have hb := preGrid_binary frac seed size difficulty
  rw [generatePuzzle_grid]
  by_cases h0 : filledCount (preGrid frac seed size difficulty) size = 0
  · have hf : filledCount (preGrid frac seed size difficulty) size ≠ size * size := by
      rw [h0]
      have hpos : 0 < size * size := Nat.mul_pos (by omega) (by omega)
      omega
    constructor
    · refine ⟨size / 2, size / 2, Nat.div_lt_self (by omega) (by omega),
        Nat.div_lt_self (by omega) (by omega), ?_⟩
      simp only [applyCorrection]
      rw [if_neg hf, if_pos h0]
      simp [updateCell]
    · refine ⟨0, 0, by omega, by omega, ?_⟩
      have hyx : ¬(((0 : ℕ) : ℤ) = ((size / 2 : ℕ) : ℤ) ∧
          ((0 : ℕ) : ℤ) = ((size / 2 : ℕ) : ℤ)) := by
        have hc1 : 1 ≤ size / 2 := by omega
        push_cast
        omega
      simp only [applyCorrection]
      rw [if_neg hf, if_pos h0]
      simp only [updateCell]
      rw [if_neg hyx]
      exact cell_zero_of_filledCount_zero h0 (by omega) (by omega)
  · by_cases hf : filledCount (preGrid frac seed size difficulty) size = size * size
    · constructor
      · refine ⟨0, 1, by omega, by omega, ?_⟩
        have hyx : ¬(((0 : ℕ) : ℤ) = 0 ∧ ((1 : ℕ) : ℤ) = 0) := by simp
        simp only [applyCorrection]
        rw [if_pos hf, if_neg h0]
        simp only [updateCell]
        rw [if_neg hyx]
        exact cell_one_of_filledCount_full hb hf (by omega) (by omega)
      · refine ⟨0, 0, by omega, by omega, ?_⟩
        simp only [applyCorrection]
        rw [if_pos hf, if_neg h0]
        simp [updateCell]
    · constructor
      · obtain ⟨y, x, hy, hx, h1⟩ := exists_one_of_filledCount_ne_zero hb h0
        refine ⟨y, x, hy, hx, ?_⟩
        simp only [applyCorrection]
        rw [if_neg hf, if_neg h0]
        exact h1
      · obtain ⟨y, x, hy, hx, hzero⟩ := exists_zero_of_filledCount_ne_full hb hf
        refine ⟨y, x, hy, hx, ?_⟩
        simp only [applyCorrection]
        rw [if_neg hf, if_neg h0]
        exact hzero

/-- Witness for C2 at seed 7, size 2, band [0.5, 0.7]. -/
theorem generated_grid_nondegenerate_witness :
    (0 : ℚ) ≤ (0.5 : ℚ) ∧ (0.5 : ℚ) ≤ (0.7 : ℚ) ∧ (0.7 : ℚ) ≤ 1 ∧ 2 ≤ 2 ∧
    ((∃ y x : ℕ, y < 2 ∧ x < 2 ∧
      (generatePuzzle (fun _ => 0) 7 2 ⟨0.5, 0.7⟩).grid (y : ℤ) (x : ℤ) = 1) ∧
     (∃ y x : ℕ, y < 2 ∧ x < 2 ∧
      (generatePuzzle (fun _ => 0) 7 2 ⟨0.5, 0.7⟩).grid (y : ℤ) (x : ℤ) = 0)) :=
  ⟨by norm_num, by norm_num, by norm_num, by norm_num,
   generated_grid_nondegenerate (fun _ => 0) 7 2 ⟨0.5, 0.7⟩ (by norm_num) (by norm_num)
     (by norm_num) (by norm_num)⟩

/-- C10: the two correction conditions are mutually exclusive for size at least
1; the correction forces the centre cell to 1 (when the count is 0) or cell
(0,0) to 0 (when the count is full), and every other cell of the output equals
the post-smoothing (or post-noise) grid. -/
theorem correction_changes_at_most_one_cell (frac : ℤ → ℚ) (seed size : ℕ)
    (difficulty : DifficultySettings) (hsize : 1 ≤ size) :
    ¬(filledCount (preGrid frac seed size difficulty) size = 0 ∧
      filledCount (preGrid frac seed size difficulty) size = size * size) ∧
    (filledCount (preGrid frac seed size difficulty) size = 0 →
      (generatePuzzle frac seed size difficulty).grid ((size / 2 : ℕ) : ℤ)
        ((size / 2 : ℕ) : ℤ) = 1) ∧
    (filledCount (preGrid frac seed size difficulty) size = size * size →
      (generatePuzzle frac seed size difficulty).grid 0 0 = 0) ∧
    ∃ p : ℤ × ℤ,
      (p = (((size / 2 : ℕ) : ℤ), ((size / 2 : ℕ) : ℤ)) ∨ p = (0, 0)) ∧
      ∀ y x : ℤ, (y, x) ≠ p →
        (generatePuzzle frac seed size difficulty).grid y x =
          preGrid frac seed size difficulty y x := by
  have hpos : 0 < size * size := Nat.mul_pos (by omega) (by omega)
  refine ⟨?_, ?_, ?_, ?_⟩
  · rintro ⟨h0, hf⟩
    rw [h0] at hf
    omega
  · intro h0
    have hf : filledCount (preGrid frac seed size difficulty) size ≠ size * size := by
      rw [h0]; omega
    rw [generatePuzzle_grid]
    simp only [applyCorrection]
    rw [if_neg hf, if_pos h0]
    simp [updateCell]
  · intro hf
    have h0 : filledCount (preGrid frac seed size difficulty) size ≠ 0 := by
      rw [hf]; omega
    rw [generatePuzzle_grid]
    simp only [applyCorrection]
    rw [if_pos hf, if_neg h0]
    simp [updateCell]
  · obtain ⟨p, hloc, hp⟩ := applyCorrection_frame (preGrid frac seed size difficulty) size
    refine ⟨p, hloc, fun y x hne => ?_⟩
    rw [generatePuzzle_grid]
    exact hp y x hne

/-- Witness for C10 at seed 3, size 1, band [1, 1]. -/
theorem correction_changes_at_most_one_cell_witness :
    1 ≤ 1 ∧
    (¬(filledCount (preGrid (fun _ => 0) 3 1 ⟨1, 1⟩) 1 = 0 ∧
       filledCount (preGrid (fun _ => 0) 3 1 ⟨1, 1⟩) 1 = 1 * 1) ∧
     (filledCount (preGrid (fun _ => 0) 3 1 ⟨1, 1⟩) 1 = 0 →
       (generatePuzzle (fun _ => 0) 3 1 ⟨1, 1⟩).grid (((1 : ℕ) / 2 : ℕ) : ℤ)
         (((1 : ℕ) / 2 : ℕ) : ℤ) = 1) ∧
     (filledCount (preGrid (fun _ => 0) 3 1 ⟨1, 1⟩) 1 = 1 * 1 →
       (generatePuzzle (fun _ => 0) 3 1 ⟨1, 1⟩).grid 0 0 = 0) ∧
     ∃ p : ℤ × ℤ,
       (p = ((((1 : ℕ) / 2 : ℕ) : ℤ), (((1 : ℕ) / 2 : ℕ) : ℤ)) ∨ p = (0, 0)) ∧
       ∀ y x : ℤ, (y, x) ≠ p →
         (generatePuzzle (fun _ => 0) 3 1 ⟨1, 1⟩).grid y x =
           preGrid (fun _ => 0) 3 1 ⟨1, 1⟩ y x) :=
  ⟨by norm_num, correction_changes_at_most_one_cell (fun _ => 0) 3 1 ⟨1, 1⟩ (by norm_num)⟩

/-- C7: when the drawn target density lies outside the open interval (0.3, 0.8),
the returned grid equals the raw noise grid except possibly at one cell (the one
the non-degeneracy correction may change). -/
theorem no_smoothing_outside_band (frac : ℤ → ℚ) (seed size : ℕ)
    (difficulty : DifficultySettings)
    (h : ¬((0.3 : ℚ) < targetDensity frac seed difficulty ∧
           targetDensity frac seed difficulty < (0.8 : ℚ))) :
    ∃ p : ℤ × ℤ, ∀ y x : ℤ, (y, x) ≠ p →
      (generatePuzzle frac seed size difficulty).grid y x =
        noiseGrid frac seed size (targetDensity frac seed difficulty) y x := by
  have hpre : preGrid frac seed size difficulty =
      noiseGrid frac seed size (targetDensity frac seed difficulty) := by
    simp only [preGrid]
    rw [if_neg h]
  obtain ⟨p, _, hp⟩ := applyCorrection_frame (preGrid frac seed size difficulty) size
  refine ⟨p, fun y x hne => ?_⟩
  rw [generatePuzzle_grid, hp y x hne, hpre]

/-- Witness for C7 at seed 5, size 2, band [0.9, 0.99]. -/
theorem no_smoothing_outside_band_witness :
    ¬((0.3 : ℚ) < targetDensity (fun _ => 0) 5 ⟨0.9, 0.99⟩ ∧
      targetDensity (fun _ => 0) 5 ⟨0.9, 0.99⟩ < (0.8 : ℚ)) ∧
    ∃ p : ℤ × ℤ, ∀ y x : ℤ, (y, x) ≠ p →
      (generatePuzzle (fun _ => 0) 5 2 ⟨0.9, 0.99⟩).grid y x =
        noiseGrid (fun _ => 0) 5 2 (targetDensity (fun _ => 0) 5 ⟨0.9, 0.99⟩) y x :=
  ⟨by norm_num [targetDensity],
   no_smoothing_outside_band (fun _ => 0) 5 2 ⟨0.9, 0.99⟩ (by norm_num [targetDensity])⟩

lemma ite_nested (P Q : Prop) [Decidable P] [Decidable Q] :
    (if P then (if Q then (1 : ℕ) else 0) else 0) = if P ∧ Q then 1 else 0 := by
  by_cases hP : P <;> by_cases hQ : Q <;> simp [hP, hQ]

lemma neighborCount_eq_mooreCount (g : Grid) (size : ℕ) (y x : ℤ) :
    neighborCount g size y x = mooreCount g size y x := by
  have hIcc : Finset.Icc (-1 : ℤ) 1 = insert (-1) (insert 0 ({1} : Finset ℤ)) := by decide
  rw [mooreCount, Finset.card_filter, Finset.sum_product, hIcc]
  simp only [Finset.sum_insert (show (-1 : ℤ) ∉ insert 0 ({1} : Finset ℤ) from by decide),
    Finset.sum_insert (show (0 : ℤ) ∉ ({1} : Finset ℤ) from by decide),
    Finset.sum_singleton]
  simp only [neighborCount, neighborContribution, List.map_cons, List.map_nil, List.sum_cons,
    List.sum_nil, ite_nested]
  norm_num

lemma mooreCount_le_eight (g : Grid) (size : ℕ) (y x : ℤ) :
    mooreCount g size y x ≤ 8 := by
  rw [mooreCount]
  calc ((Finset.Icc (-1 : ℤ) 1 ×ˢ Finset.Icc (-1 : ℤ) 1).filter fun p =>
        p ≠ (0, 0) ∧
          ((0 ≤ y + p.1 ∧ y + p.1 < (size : ℤ) ∧ 0 ≤ x + p.2 ∧ x + p.2 < (size : ℤ)) ∧
            g (y + p.1) (x + p.2) = 1)).card
      ≤ ((Finset.Icc (-1 : ℤ) 1 ×ˢ Finset.Icc (-1 : ℤ) 1).erase (0, 0)).card := by
        apply Finset.card_le_card
        intro p hp
        rw [Finset.mem_filter] at hp
        exact Finset.mem_erase.mpr ⟨hp.2.1, hp.1⟩
    _ = 8 := by decide

/-- C6: when the drawn target density lies strictly between 0.3 and 0.8, the
pre-correction grid is exactly two smoothing iterations applied to the noise
grid, and each iteration maps every in-bounds cell through the Moore-neighbour
rule (at most 8 in-bounds neighbours, read from the pre-iteration grid into a
fresh grid): a filled cell stays filled iff it has at least 3 filled
neighbours, an empty cell becomes filled iff it has at least 4. -/
theorem smoothing_two_iterations_rule (frac : ℤ → ℚ) (seed size : ℕ)
    (difficulty : DifficultySettings)
    (h1 : (0.3 : ℚ) < targetDensity frac seed difficulty)
    (h2 : targetDensity frac seed difficulty < (0.8 : ℚ)) :
    preGrid frac seed size difficulty =
      smoothStep (smoothStep
        (noiseGrid frac seed size (targetDensity frac seed difficulty)) size) size ∧
    ∀ g : Grid, ∀ y x : ℤ, 0 ≤ y → y < (size : ℤ) → 0 ≤ x → x < (size : ℤ) →
      mooreCount g size y x ≤ 8 ∧
      smoothStep g size y x =
        (if g y x = 1 then (if 3 ≤ mooreCount g size y x then 1 else 0)
         else (if 4 ≤ mooreCount g size y x then 1 else 0)) := by
  constructor
  · simp only [preGrid]
    rw [if_pos ⟨h1, h2⟩]
  · intro g y x hy hy2 hx hx2
    refine ⟨mooreCount_le_eight g size y x, ?_⟩
    simp only [smoothStep, neighborCount_eq_mooreCount]
    rw [if_pos ⟨hy, hy2, hx, hx2⟩]

/-- Witness for C6 at seed 42, size 3, band [0.5, 0.7] with draw value 1/2,
whose target density is 0.6. -/
theorem smoothing_two_iterations_rule_witness :
    (0.3 : ℚ) < targetDensity (fun _ => 1 / 2) 42 ⟨0.5, 0.7⟩ ∧
    targetDensity (fun _ => 1 / 2) 42 ⟨0.5, 0.7⟩ < (0.8 : ℚ) ∧
    (preGrid (fun _ => 1 / 2) 42 3 ⟨0.5, 0.7⟩ =
      smoothStep (smoothStep
        (noiseGrid (fun _ => 1 / 2) 42 3 (targetDensity (fun _ => 1 / 2) 42 ⟨0.5, 0.7⟩)) 3) 3 ∧
     ∀ g : Grid, ∀ y x : ℤ, 0 ≤ y → y < ((3 : ℕ) : ℤ) → 0 ≤ x → x < ((3 : ℕ) : ℤ) →
       mooreCount g 3 y x ≤ 8 ∧
       smoothStep g 3 y x =
         (if g y x = 1 then (if 3 ≤ mooreCount g 3 y x then 1 else 0)
          else (if 4 ≤ mooreCount g 3 y x then 1 else 0))) :=
  ⟨by norm_num [targetDensity], by norm_num [targetDensity],
   smoothing_two_iterations_rule (fun _ => 1 / 2) 42 3 ⟨0.5, 0.7⟩
     (by norm_num [targetDensity]) (by norm_num [targetDensity])⟩

lemma filledCount_one (g : Grid) : filledCount g 1 = g 0 0 := by
  simp [filledCount]

lemma neighborCount_one (g : Grid) : neighborCount g 1 0 0 = 0 := by
  norm_num [neighborCount, neighborContribution]

/-- C8: at size 1 the generator returns a well-defined single-cell grid of 0 or
1: exactly one of the two correction conditions holds for the pre-correction
grid, the output cell is the negation of the pre-correction cell, and it is 1
whenever the smoothing pass ran. -/
theorem size_one_generation (frac : ℤ → ℚ) (seed : ℕ) (difficulty : DifficultySettings) :
    (filledCount (preGrid frac seed 1 difficulty) 1 = 0 ∨
     filledCount (preGrid frac seed 1 difficulty) 1 = 1 * 1) ∧
    ¬(filledCount (preGrid frac seed 1 difficulty) 1 = 0 ∧
      filledCount (preGrid frac seed 1 difficulty) 1 = 1 * 1) ∧
    (generatePuzzle frac seed 1 difficulty).grid 0 0 =
      1 - preGrid frac seed 1 difficulty 0 0 ∧
    ((generatePuzzle frac seed 1 difficulty).grid 0 0 = 0 ∨
     (generatePuzzle frac seed 1 difficulty).grid 0 0 = 1) ∧
    ((0.3 : ℚ) < targetDensity frac seed difficulty ∧
        targetDensity frac seed difficulty < (0.8 : ℚ) →
      (generatePuzzle frac seed 1 difficulty).grid 0 0 = 1) := by
  have hb := preGrid_binary frac seed 1 difficulty
  have hfc := filledCount_one (preGrid frac seed 1 difficulty)
  have hmain : (generatePuzzle frac seed 1 difficulty).grid 0 0 =
      1 - preGrid frac seed 1 difficulty 0 0 := by
    rcases hb 0 0 with h00 | h00
    · have h0 : filledCount (preGrid frac seed 1 difficulty) 1 = 0 := by rw [hfc, h00]
      have hf : filledCount (preGrid frac seed 1 difficulty) 1 ≠ 1 * 1 := by
        rw [h0]; norm_num
      rw [generatePuzzle_grid]
      simp only [applyCorrection]
      rw [if_neg hf, if_pos h0]
      simp [updateCell, h00]
    · have hf : filledCount (preGrid frac seed 1 difficulty) 1 = 1 * 1 := by
        rw [hfc, h00]
      have h0 : filledCount (preGrid frac seed 1 difficulty) 1 ≠ 0 := by
        rw [hf]; norm_num
      rw [generatePuzzle_grid]
      simp only [applyCorrection]
      rw [if_pos hf, if_neg h0]
      simp [updateCell, h00]
  refine ⟨?_, ?_, hmain, ?_, ?_⟩
  · rcases hb 0 0 with h00 | h00
    · exact Or.inl (by rw [hfc, h00])
    · exact Or.inr (by rw [hfc, h00])
  · rintro ⟨h0, hf⟩
    rw [h0] at hf
    norm_num at hf
  · rw [hmain]
    rcases hb 0 0 with h00 | h00 <;> rw [h00] <;> norm_num
  · rintro ⟨hd1, hd2⟩
    have hpre : preGrid frac seed 1 difficulty =
        smoothStep (smoothStep
          (noiseGrid frac seed 1 (targetDensity frac seed difficulty)) 1) 1 := by
      simp only [preGrid]
      rw [if_pos ⟨hd1, hd2⟩]
    have hcell : preGrid frac seed 1 difficulty 0 0 = 0 := by
      rw [hpre]
      simp [smoothStep, neighborCount_one]
    rw [hmain, hcell]

/-- Witness for C8 at seed 9 and band [0.5, 0.5]. -/
theorem size_one_generation_witness :
    (filledCount (preGrid (fun _ => 0) 9 1 ⟨0.5, 0.5⟩) 1 = 0 ∨
     filledCount (preGrid (fun _ => 0) 9 1 ⟨0.5, 0.5⟩) 1 = 1 * 1) ∧
    ¬(filledCount (preGrid (fun _ => 0) 9 1 ⟨0.5, 0.5⟩) 1 = 0 ∧
      filledCount (preGrid (fun _ => 0) 9 1 ⟨0.5, 0.5⟩) 1 = 1 * 1) ∧
    (generatePuzzle (fun _ => 0) 9 1 ⟨0.5, 0.5⟩).grid 0 0 =
      1 - preGrid (fun _ => 0) 9 1 ⟨0.5, 0.5⟩ 0 0 ∧
    ((generatePuzzle (fun _ => 0) 9 1 ⟨0.5, 0.5⟩).grid 0 0 = 0 ∨
     (generatePuzzle (fun _ => 0) 9 1 ⟨0.5, 0.5⟩).grid 0 0 = 1) ∧
    ((0.3 : ℚ) < targetDensity (fun _ => 0) 9 ⟨0.5, 0.5⟩ ∧
        targetDensity (fun _ => 0) 9 ⟨0.5, 0.5⟩ < (0.8 : ℚ) →
      (generatePuzzle (fun _ => 0) 9 1 ⟨0.5, 0.5⟩).grid 0 0 = 1) :=
  size_one_generation (fun _ => 0) 9 ⟨0.5, 0.5⟩
